import Mathlib

/-!
# GEN3 tactile-sensor serial protocol — verification of the spec against the code

Shallow embedding of the protocol core of the two serial example scripts
(`Read_Single_Sensor_Hand.py` and `Read_Single_Sensor_Usb.py`).  Byte strings
are modelled as `List Nat` (each entry a byte value 0–255 where the source
guarantees it); Python integers are `Nat`/`Int` with explicit `% 256`
wraparound where the source masks with `& 0xFF`; fallible functions return
`Option`/`Except`.  Serial I/O is abstracted: functions that read from the
port take the bytes that the port delivered as an explicit argument, and the
polling loop of `read_serial_data` is modelled over the sequence of non-empty
chunks the port hands back, with wall-clock timing abstracted away.
-/

/-- Embeds `calc_lrc` from `Read_Single_Sensor_Hand.py` (lines 89–100):
8-bit wraparound accumulation `lrc_sum = (lrc_sum + byte) & 0xFF`, then the
two's-complement step `((~lrc_sum) + 1) & 0xFF`, using Python's semantics
`~x = -x - 1` and `n & 0xFF = n mod 256` (Euclidean remainder). -/
def calc_lrc (data : List Nat) : Nat :=
  let lrc_sum : Nat := data.foldl (fun s b => (s + b) % 256) 0
  ((-(lrc_sum : Int) - 1 + 1) % 256).toNat

/-- Embeds `calculate_lrc` from `Read_Single_Sensor_Usb.py` (lines 58–64),
which is character-for-character the same algorithm as `calc_lrc`. -/
def calculate_lrc (data : List Nat) : Nat :=
  let lrc : Nat := data.foldl (fun s b => (s + b) % 256) 0
  ((-(lrc : Int) - 1 + 1) % 256).toNat

/-- Little-endian 2-byte encoding, the meaning of Python's
`n.to_bytes(2, byteorder="little")` for `n < 65536`. -/
def le2 (n : Nat) : List Nat := [n % 256, n / 256]

/-- Little-endian value of a byte string of any length, the meaning of
Python's `int.from_bytes(bs, "little")`. -/
def leVal (l : List Nat) : Nat := l.foldr (fun b acc => b + 256 * acc) 0

/-- Embeds `build_request_frame` from `Read_Single_Sensor_Hand.py`
(lines 103–137).  The source returns the frame as an upper-case hex string;
we model the underlying byte sequence (`send_hex_cmd` converts the hex right
back to these bytes before writing).  The `except` clause of the source turns
the `OverflowError` of `to_bytes` into a `None` return, hence the range
guards.  The source's example-consistency comparison only logs a warning and
has no effect on the returned frame, so it is not modelled. -/
def build_request_frame (func_code reg_addr data_len : Nat)
    (write_data : List Nat) : Option (List Nat) :=
  if func_code < 256 ∧ reg_addr < 65536 ∧ data_len < 65536 then
    let frame_without_lrc :=
      [0x55, 0xAA, 0x00] ++ [func_code] ++ le2 reg_addr ++ le2 data_len ++ write_data
    some (frame_without_lrc ++ [calc_lrc frame_without_lrc])
  else none

/-- The running 8-bit accumulation of `calc_lrc` agrees with the plain list
sum modulo 256. -/
theorem foldl_add_mod (l : List Nat) (a : Nat) :
    l.foldl (fun s b => (s + b) % 256) a % 256 = (a + l.sum) % 256 := by
  induction l generalizing a with
  | nil => simp
  | cons x t ih =>
    simp only [List.foldl_cons, List.sum_cons]
    rw [ih]
    omega

/-- C1: For every byte sequence `b`, the checksum function (`calc_lrc` in the
Hand script, `calculate_lrc` in the Usb script) returns
`(-(sum of the bytes of b)) mod 256` — the two's-complement negation of the
unsigned 8-bit wraparound sum — a value in 0..255; it is a pure deterministic
function with no error cases, and the two implementations agree on every
input. -/
theorem c1_lrc_correct (b : List Nat) :
    calc_lrc b = ((-(b.sum : Int)) % 256).toNat
    ∧ calc_lrc b < 256
    ∧ calculate_lrc b = calc_lrc b := by
  have hs : b.foldl (fun s x => (s + x) % 256) 0 % 256 = b.sum % 256 := by
    simpa using foldl_add_mod b 0
  have hsi : ((b.foldl (fun s x => (s + x) % 256) 0 : Nat) : Int) % 256
      = ((b.sum : Nat) : Int) % 256 := by exact_mod_cast hs
  refine ⟨?_, ?_, rfl⟩
  · simp only [calc_lrc]
    omega
  · simp only [calc_lrc]
    omega

/-- C3: The frame builder reproduces the two reference byte sequences exactly:
`build_request_frame(0x10, 0x0017, 1, 0x01)` yields the bytes
`55 AA 00 10 17 00 01 00 01 D8`, and `build_request_frame(0x03, 0x0000, 15, b"")`
yields the bytes `55 AA 00 03 00 00 0F 00 EF`. -/
theorem c3_builder_reproduces_examples :
    build_request_frame 0x10 0x0017 1 [0x01]
      = some [0x55, 0xAA, 0x00, 0x10, 0x17, 0x00, 0x01, 0x00, 0x01, 0xD8]
    ∧ build_request_frame 0x03 0x0000 0x0F []
      = some [0x55, 0xAA, 0x00, 0x03, 0x00, 0x00, 0x0F, 0x00, 0xEF] := by
  constructor <;> rfl

/-- Decode errors of `parse_response`, one per distinct `return None` site in
the source, plus `indexError` marking a (never-taken) out-of-bounds scalar
read of the embedding's `Option`-returning indexing. -/
inductive PErr where
  | tooShort
  | badHead
  | unknownFunc
  | indexError
  deriving DecidableEq, Repr

/-- Result record of `parse_response` (the Python `parsed` dict).  The source
adds the `error_code` key only in the device-error branch; here it is a field
that is 0 outside that branch. -/
structure ParsedResponse where
  is_error : Bool
  reserved : Nat
  func_code : Nat
  reg_addr : Nat
  data_len : Nat
  actual_data_len : Nat
  data : List Nat
  lrc_valid : Bool
  lrc_calc : Nat
  lrc_recv : Nat
  error_code : Nat
  deriving DecidableEq, Repr

/-- Body of `parse_response` after the scalar byte reads `response[2]` …
`response[7]` and `response[-1]` have succeeded (they always do once the
length guard has passed; see `c5_parse_total`). -/
def parse_fields (r : List Nat) (b2 b3 b4 b5 b6 b7 lrc_recv : Nat) :
    Except PErr ParsedResponse :=
  let reg_addr := b4 + 256 * b5
  let data_len := b6 + 256 * b7
  let actual_data_len := if 8 < r.length then r.length - 9 else 0
  if b3 &&& 0x80 ≠ 0 then
    .ok ⟨true, b2, b3, reg_addr, data_len, actual_data_len, [], false, 0,
         lrc_recv, b3 &&& 0x7F⟩
  else if b3 ≠ 0x03 ∧ b3 ≠ 0x10 then .error .unknownFunc
  else
    let data :=
      if 0 < data_len ∧ 8 + data_len + 1 ≤ r.length then (r.drop 8).take data_len
      else if 0 < data_len ∧ 8 < r.length then (r.drop 8).dropLast
      else []
    let lrc_calc := if 9 ≤ r.length then calc_lrc r.dropLast else 0
    let lrc_valid := if 9 ≤ r.length then decide (lrc_calc = lrc_recv) else false
    .ok ⟨false, b2, b3, reg_addr, data_len, actual_data_len, data, lrc_valid,
         lrc_calc, lrc_recv, 0⟩

/-- Embeds `parse_response` from `Read_Single_Sensor_Hand.py` (lines 192–253):
length guard (< 8 bytes), head check (`AA 55`), little-endian field
extraction, device-error short-circuit on the function byte's top bit,
function-code whitelist, payload extraction with the truncated fallback
`response[8:-1]`, and LRC verification over `response[:-1]` against
`response[-1]` recorded in `lrc_valid`.  Scalar byte reads go through
`Option`-returning indexing with an explicit `indexError` branch. -/
def parse_response (r : List Nat) : Except PErr ParsedResponse :=
  if r.length < 8 then .error .tooShort
  else if r.take 2 ≠ [0xAA, 0x55] then .error .badHead
  else
    match r[2]?, r[3]?, r[4]?, r[5]?, r[6]?, r[7]?,
        (if 9 ≤ r.length then r[r.length - 1]? else some 0) with
    | some b2, some b3, some b4, some b5, some b6, some b7, some lrc_recv =>
      parse_fields r b2 b3 b4 b5 b6 b7 lrc_recv
    | _, _, _, _, _, _, _ => .error .indexError

/-- Once the length guard and head check pass, all scalar reads succeed and
`parse_response` reduces to `parse_fields` on the actual byte values. -/
theorem parse_response_eq_fields (r : List Nat) (h8 : 8 ≤ r.length)
    (hh : r.take 2 = [0xAA, 0x55]) :
    parse_response r = parse_fields r (r.getD 2 0) (r.getD 3 0) (r.getD 4 0)
      (r.getD 5 0) (r.getD 6 0) (r.getD 7 0)
      (if 9 ≤ r.length then r.getD (r.length - 1) 0 else 0) := by
  have h2 : 2 < r.length := by omega
  have h3 : 3 < r.length := by omega
  have h4 : 4 < r.length := by omega
  have h5 : 5 < r.length := by omega
  have h6 : 6 < r.length := by omega
  have h7 : 7 < r.length := by omega
  have hL : r.length - 1 < r.length := by omega
  simp only [parse_response, if_neg (by omega : ¬ r.length < 8), hh,
    List.getElem?_eq_getElem, h2, h3, h4, h5, h6, h7, hL,
    List.getD_eq_getElem?_getD, List.getElem?_eq_getElem]
  by_cases h9 : 9 ≤ r.length
  · simp [h9]
  · simp [h9]

/-- `parse_fields` can never signal an out-of-bounds read. -/
theorem parse_fields_ne_indexError (r : List Nat) (b2 b3 b4 b5 b6 b7 lr : Nat) :
    parse_fields r b2 b3 b4 b5 b6 b7 lr ≠ .error .indexError := by
  simp only [parse_fields]
  split
  · simp
  · split <;> simp

/-- C5: For every input buffer of fewer than 8 bytes, `parse_response` returns
the `FrameTooShort` error and never reaches an out-of-bounds index; more
generally parsing is total: for an arbitrary byte buffer of any length and
contents, every field access in `parse_response` is in bounds — the
embedding's `Option`-returning indexing never hits its `indexError` branch
after the length guard. -/
theorem c5_parse_total (r : List Nat) :
    (r.length < 8 → parse_response r = .error .tooShort)
    ∧ parse_response r ≠ .error .indexError := by
  constructor
  · intro h
    simp [parse_response, h]
  · by_cases h8 : r.length < 8
    · simp [parse_response, h8]
    · by_cases hh : r.take 2 = [0xAA, 0x55]
      · rw [parse_response_eq_fields r (by omega) hh]
        exact parse_fields_ne_indexError _ _ _ _ _ _ _ _
      · simp [parse_response, h8, hh]

/-- Closed instance of `c5_parse_total` at the 1-byte buffer `[0xAA]`. -/
theorem c5_witness :
    parse_response [0xAA] = .error .tooShort
    ∧ parse_response [0xAA] ≠ .error .indexError :=
  ⟨(c5_parse_total [0xAA]).1 (by decide), (c5_parse_total [0xAA]).2⟩

/-- C4: For every input buffer of at least 8 bytes whose first two bytes are
`AA 55` and whose function byte (offset 3) has bit `0x80` set,
`parse_response` returns a device-error result carrying the error code
`function & 0x7F` and performs no payload extraction: the returned result's
data field is empty regardless of the remaining buffer contents. -/
theorem c4_error_frame_no_payload (r : List Nat) (h8 : 8 ≤ r.length)
    (hh : r.take 2 = [0xAA, 0x55]) (hf : r.getD 3 0 &&& 0x80 ≠ 0) :
    ∃ p, parse_response r = .ok p ∧ p.is_error = true
      ∧ p.error_code = r.getD 3 0 &&& 0x7F ∧ p.data = [] := by
  rw [parse_response_eq_fields r h8 hh]
  simp only [parse_fields, if_pos hf]
  exact ⟨_, rfl, rfl, rfl, rfl⟩

/-- Closed instance of `c4_error_frame_no_payload` on the error frame
`AA 55 00 81 00 00 05 00`. -/
theorem c4_witness :
    ∃ p, parse_response [0xAA, 0x55, 0x00, 0x81, 0x00, 0x00, 0x05, 0x00] = .ok p
      ∧ p.is_error = true
      ∧ p.error_code = [0xAA, 0x55, 0x00, 0x81, 0x00, 0x00, 0x05, 0x00].getD 3 0 &&& 0x7F
      ∧ p.data = [] :=
  c4_error_frame_no_payload _ (by decide) (by decide) (by decide)

/-- C9 as stated is false on the code: `parse_response` does not compute the
LRC over `[0, 8 + data_len)`.  On the buffer
`AA 55 00 03 00 00 01 00 07 F6 F6` (declared extent `8 + 1 = 9`, one stray
trailing byte) the LRC over the first 9 bytes is `F6`, which equals both the
byte at offset 9 and the trailing byte, so under the claim the frame is
checksum-valid — yet the code computes the LRC over the first 10 bytes
(everything except the final received byte) and reports `lrc_valid = false`. -/
theorem c9_lrc_range_claim_false :
    (parse_response [0xAA, 0x55, 0x00, 0x03, 0x00, 0x00, 0x01, 0x00, 0x07, 0xF6, 0xF6]).toOption.map
        (fun p => (p.lrc_valid, p.data_len, p.data))
      = some (false, 1, [0x07])
    ∧ calc_lrc ([0xAA, 0x55, 0x00, 0x03, 0x00, 0x00, 0x01, 0x00, 0x07, 0xF6, 0xF6].take (8 + 1))
      = 0xF6
    ∧ [0xAA, 0x55, 0x00, 0x03, 0x00, 0x00, 0x01, 0x00, 0x07, 0xF6, 0xF6].getD (8 + 1) 0 = 0xF6
    ∧ [0xAA, 0x55, 0x00, 0x03, 0x00, 0x00, 0x01, 0x00, 0x07, 0xF6, 0xF6].getD 10 0 = 0xF6 := by
  refine ⟨rfl, rfl, rfl, rfl⟩

/-- C9 amended: for every general-response buffer that reaches the
checksum-verification step (length ≥ 9, head `AA 55`, function byte with top
bit clear and equal to 0x03 or 0x10), `parse_response` computes the LRC over
all received bytes except the last — checksum offset `length − 1`, not the
declared `8 + data_len` extent — compares it to the buffer's final byte, and
records the outcome in the result's `lrc_valid` field without rejecting the
frame on mismatch (the parsed fields are still returned to the caller). -/
theorem c9_lrc_over_all_but_last (r : List Nat) (h9 : 9 ≤ r.length)
    (hh : r.take 2 = [0xAA, 0x55]) (hf : r.getD 3 0 &&& 0x80 = 0)
    (hfc : r.getD 3 0 = 0x03 ∨ r.getD 3 0 = 0x10) :
    ∃ p, parse_response r = .ok p
      ∧ p.lrc_calc = calc_lrc r.dropLast
      ∧ p.lrc_valid = decide (calc_lrc r.dropLast = r.getD (r.length - 1) 0)
      ∧ p.is_error = false := by
  have hb : ¬ (r.getD 3 0 &&& 0x80 ≠ 0) := not_not_intro hf
  have hc : ¬ (r.getD 3 0 ≠ 0x03 ∧ r.getD 3 0 ≠ 0x10) := fun h => hfc.elim h.1 h.2
  rw [parse_response_eq_fields r (by omega) hh]
  simp only [parse_fields, if_neg hb, if_neg hc, if_pos h9]
  exact ⟨_, rfl, rfl, rfl, rfl⟩

/-- Closed instance of `c9_lrc_over_all_but_last` on the checksum-correct
9-byte response `AA 55 00 03 00 00 00 00 2B`. -/
theorem c9_witness :
    ∃ p, parse_response [0xAA, 0x55, 0x00, 0x03, 0x00, 0x00, 0x00, 0x00, 0x2B] = .ok p
      ∧ p.lrc_calc = calc_lrc [0xAA, 0x55, 0x00, 0x03, 0x00, 0x00, 0x00, 0x00, 0x2B].dropLast
      ∧ p.lrc_valid = decide (calc_lrc [0xAA, 0x55, 0x00, 0x03, 0x00, 0x00, 0x00, 0x00, 0x2B].dropLast
          = [0xAA, 0x55, 0x00, 0x03, 0x00, 0x00, 0x00, 0x00, 0x2B].getD
              ([0xAA, 0x55, 0x00, 0x03, 0x00, 0x00, 0x00, 0x00, 0x2B].length - 1) 0)
      ∧ p.is_error = false :=
  c9_lrc_over_all_but_last _ (by decide) (by decide) (by decide) (by decide)

/-- The last entry of `l ++ [a]`, read through `getD` at index `length − 1`,
is `a`. -/
theorem getD_concat_last (l : List Nat) (a d : Nat) :
    (l ++ [a]).getD ((l ++ [a]).length - 1) d = a := by
  induction l with
  | nil => rfl
  | cons x t ih =>
    have hlen : (t ++ [a]).length = t.length + 1 := by simp
    simp only [List.cons_append, List.length_cons, Nat.add_sub_cancel,
      List.getD_cons_succ, hlen]
    simp only [hlen, Nat.add_sub_cancel] at ih
    exact ih

/-- C2 as stated is false on the code in its parenthetical part: the built
enable-auto-push frame, fed unmodified to `parse_response`, is rejected at
the head check (requests carry head `55 AA`, the parser demands `AA 55`), so
no `lrc_valid` flag is ever produced for it. -/
theorem c2_built_frame_head_rejected :
    build_request_frame 0x10 0x0017 1 [0x01]
      = some [0x55, 0xAA, 0x00, 0x10, 0x17, 0x00, 0x01, 0x00, 0x01, 0xD8]
    ∧ parse_response [0x55, 0xAA, 0x00, 0x10, 0x17, 0x00, 0x01, 0x00, 0x01, 0xD8]
      = .error .badHead := by
  exact ⟨rfl, rfl⟩

/-- C2 amended: appending `lrc(b)` to `b` yields a sequence that is
checksum-valid under the parser's verification step — the LRC computed over
all bytes of the extended sequence except the last equals its last byte; and
every frame produced by `build_request_frame` satisfies that same
verification equality, although `parse_response` itself, given the built
frame unmodified, rejects it at the head check (`55 AA` vs `AA 55`) before
any LRC flag is produced. -/
theorem c2_append_lrc_checkvalid (b wd : List Nat) (fc reg dl : Nat) (f : List Nat) :
    calc_lrc ((b ++ [calc_lrc b]).dropLast)
      = (b ++ [calc_lrc b]).getD ((b ++ [calc_lrc b]).length - 1) 0
    ∧ (build_request_frame fc reg dl wd = some f →
        calc_lrc f.dropLast = f.getD (f.length - 1) 0
        ∧ parse_response f = .error .badHead) := by
  constructor
  · rw [List.dropLast_concat, getD_concat_last]
  · intro hb
    simp only [build_request_frame] at hb
    split at hb
    case isFalse => exact absurd hb (by simp)
    case isTrue hcond =>
      have hf : f = ([0x55, 0xAA, 0x00] ++ [fc] ++ le2 reg ++ le2 dl ++ wd)
          ++ [calc_lrc ([0x55, 0xAA, 0x00] ++ [fc] ++ le2 reg ++ le2 dl ++ wd)] :=
        (Option.some.inj hb).symm
      subst hf
      constructor
      · rw [List.dropLast_concat, getD_concat_last]
      · have h1 : ¬ ((([0x55, 0xAA, 0x00] ++ [fc] ++ le2 reg ++ le2 dl ++ wd)
            ++ [calc_lrc ([0x55, 0xAA, 0x00] ++ [fc] ++ le2 reg ++ le2 dl ++ wd)]).length < 8) := by
          simp [le2]
        have h2 : (([0x55, 0xAA, 0x00] ++ [fc] ++ le2 reg ++ le2 dl ++ wd)
            ++ [calc_lrc ([0x55, 0xAA, 0x00] ++ [fc] ++ le2 reg ++ le2 dl ++ wd)]).take 2
            = [0x55, 0xAA] := by
          simp [le2]
        simp only [parse_response, if_neg h1, h2]
        rfl

/-- Closed instance of `c2_append_lrc_checkvalid` at the enable-auto-push
example frame. -/
theorem c2_witness :
    calc_lrc [0x55, 0xAA, 0x00, 0x10, 0x17, 0x00, 0x01, 0x00, 0x01, 0xD8].dropLast
      = [0x55, 0xAA, 0x00, 0x10, 0x17, 0x00, 0x01, 0x00, 0x01, 0xD8].getD 9 0
    ∧ parse_response [0x55, 0xAA, 0x00, 0x10, 0x17, 0x00, 0x01, 0x00, 0x01, 0xD8]
      = .error .badHead := by
  have h := (c2_append_lrc_checkvalid [] [0x01] 0x10 0x0017 1
      [0x55, 0xAA, 0x00, 0x10, 0x17, 0x00, 0x01, 0x00, 0x01, 0xD8]).2 (by rfl)
  simpa using h

/-- Embeds `read_register` from `Read_Single_Sensor_Hand.py` (lines 256–282).
The serial exchange is abstracted: `response` is what `read_serial_data`
returned for this request (`none` on timeout), and the `send_hex_cmd` write
is assumed to succeed.  The source checks, in order: the 1–512 length bound,
that the frame built, that a response arrived (`if not response` — `None` or
empty), that parsing succeeded, that the response is not a device error, and
that its function code is `FUNC_READ` (0x03); on success it returns the
parsed `data` field.  No condition involves `lrc_valid`. -/
def read_register (reg_addr read_len : Nat) (response : Option (List Nat)) :
    Option (List Nat) :=
  if ¬ (1 ≤ read_len ∧ read_len ≤ 512) then none
  else
    match build_request_frame 0x03 reg_addr read_len [] with
    | none => none
    | some _ =>
      match response with
      | none => none
      | some r =>
        if r = [] then none
        else
          match parse_response r with
          | .error _ => none
          | .ok p => if p.is_error || p.func_code != 0x03 then none else some p.data

/-- Result record of `parse_auto_response` (`Read_Single_Sensor_Hand.py`,
lines 140–189).  `valid_data_len` is an `Int` because the source computes
`valid_frame_len - 1` with Python integers, which is `-1` when the declared
valid frame length is 0.  `head` holds the two head bytes (the source stores
their hex spelling). -/
structure AutoParsed where
  head : List Nat
  reserved : Nat
  valid_frame_len : Nat
  error_code : Nat
  valid_data : List Nat
  valid_data_len : Int
  lrc_valid : Bool
  lrc_calc : Nat
  lrc_recv : Nat
  deriving DecidableEq, Repr

/-- Embeds `parse_auto_response` from `Read_Single_Sensor_Hand.py`
(lines 140–189): length guard (< 7 bytes), head check (`AA 56`),
little-endian `valid_frame_len`, `error_code` at offset 5, data extraction
from offset 6 with the truncated fallback `response[6:-1]`, and LRC
verification over `response[:-1]` guarded by
`len(response) >= 6 + valid_data_len + 1`. -/
def parse_auto_response (r : List Nat) : Option AutoParsed :=
  if r.length < 7 then none
  else if r.take 2 ≠ [0xAA, 0x56] then none
  else
    let valid_frame_len := r.getD 3 0 + 256 * r.getD 4 0
    let vdl : Int := (valid_frame_len : Int) - 1
    let lrc_recv := r.getD (r.length - 1) 0
    let valid_data :=
      if 0 < vdl then
        if 6 + vdl ≤ (r.length : Int) - 1 then (r.drop 6).take vdl.toNat
        else (r.drop 6).dropLast
      else []
    let lrc_calc := if 6 + vdl + 1 ≤ (r.length : Int) then calc_lrc r.dropLast else 0
    let lrc_valid :=
      if 6 + vdl + 1 ≤ (r.length : Int) then decide (lrc_calc = lrc_recv) else false
    some ⟨r.take 2, r.getD 2 0, valid_frame_len, r.getD 5 0, valid_data, vdl,
          lrc_valid, lrc_calc, lrc_recv⟩

/-- Embeds `write_register` from `Read_Single_Sensor_Hand.py`
(lines 285–330), with the serial exchange abstracted as in `read_register`.
Checks the 1–10 payload-length bound, builds and sends the write frame, then
parses the response with `parse_auto_response` (auto-push variant, success
iff `error_code = 0`) or `parse_response` (normal variant, success iff no
device error, function code 0x10, and a returned status value of 0 when a
status payload is present). -/
def write_register (reg_addr : Nat) (write_data : List Nat) (is_auto_push : Bool)
    (response : Option (List Nat)) : Bool :=
  if ¬ (1 ≤ write_data.length ∧ write_data.length ≤ 10) then false
  else
    match build_request_frame 0x10 reg_addr write_data.length write_data with
    | none => false
    | some _ =>
      match response with
      | none => false
      | some r =>
        if r = [] then false
        else if is_auto_push then
          match parse_auto_response r with
          | none => false
          | some p => p.error_code == 0
        else
          match parse_response r with
          | .error _ => false
          | .ok p =>
            if p.is_error || p.func_code != 0x10 then false
            else if 0 < p.data.length then leVal p.data == 0
            else true

/-- C6 as stated is false on the code: `read_register` never checks the
parsed response's `lrc_valid` flag.  On the response
`AA 55 00 03 00 00 01 00 07 FF` the received checksum `FF` differs from the
computed `F6`, so `lrc_valid` is `false` — yet `read_register` returns the
payload `[0x07]` instead of failing with a checksum error. -/
theorem c6_checksum_not_enforced :
    (parse_response [0xAA, 0x55, 0x00, 0x03, 0x00, 0x00, 0x01, 0x00, 0x07, 0xFF]).toOption.map
        (fun p => (p.lrc_valid, p.data))
      = some (false, [0x07])
    ∧ read_register 0 1 (some [0xAA, 0x55, 0x00, 0x03, 0x00, 0x00, 0x01, 0x00, 0x07, 0xFF])
      = some [0x07] := by
  exact ⟨rfl, rfl⟩

/-- C6 amended: `read_register`, for every register address and in-bounds
length, sends the built read request and parses the response read with the
general-response head; it fails — always with the single undifferentiated
value `None` rather than distinct error codes — on timeout, on bad head /
short frame / unknown function, and when the response is a device error or
carries a function code other than 0x03; on success it returns exactly the
decoded payload bytes.  It performs no checksum enforcement: the result does
not depend on `lrc_valid`, so a payload is returned even when the checksum
check failed. -/
theorem c6_read_register_behavior (reg_addr read_len : Nat) (r : List Nat)
    (p : ParsedResponse) (hreg : reg_addr < 65536) (hlo : 1 ≤ read_len)
    (hhi : read_len ≤ 512) :
    read_register reg_addr read_len none = none
    ∧ (∀ e, parse_response r = .error e → read_register reg_addr read_len (some r) = none)
    ∧ (parse_response r = .ok p →
        read_register reg_addr read_len (some r)
          = if p.is_error || p.func_code != 0x03 then none else some p.data) := by
  have hb : build_request_frame 0x03 reg_addr read_len []
      = some (([0x55, 0xAA, 0x00] ++ [0x03] ++ le2 reg_addr ++ le2 read_len ++ [])
          ++ [calc_lrc ([0x55, 0xAA, 0x00] ++ [0x03] ++ le2 reg_addr ++ le2 read_len ++ [])]) := by
    simp only [build_request_frame, if_pos (by omega : (0x03 : Nat) < 256 ∧ reg_addr < 65536
      ∧ read_len < 65536)]
  have hlen : ¬ ¬ (1 ≤ read_len ∧ read_len ≤ 512) := by omega
  refine ⟨?_, ?_, ?_⟩
  · simp only [read_register, if_neg hlen, hb]
  · intro e he
    by_cases hr : r = []
    · simp only [read_register, if_neg hlen, hb, if_pos hr]
    · simp only [read_register, if_neg hlen, hb, if_neg hr, he]
  · intro hp
    have hr : r ≠ [] := by
      intro h
      rw [h, (rfl : parse_response [] = .error .tooShort)] at hp
      exact Except.noConfusion hp
    simp only [read_register, if_neg hlen, hb, if_neg hr, hp]

/-- Closed instance of `c6_read_register_behavior`: on the checksum-correct
response `AA 55 00 03 00 00 01 00 07 F6`, `read_register` returns the
decoded payload `[0x07]`. -/
theorem c6_witness :
    read_register 0 1 (some [0xAA, 0x55, 0x00, 0x03, 0x00, 0x00, 0x01, 0x00, 0x07, 0xF6])
      = some [0x07] := by
  have h := (c6_read_register_behavior 0 1
      [0xAA, 0x55, 0x00, 0x03, 0x00, 0x00, 0x01, 0x00, 0x07, 0xF6]
      ⟨false, 0, 3, 0, 1, 1, [0x07], true, 0xF6, 0xF6, 0⟩
      (by decide) (by decide) (by decide)).2.2 (by rfl)
  simpa using h

/-- C8: Request construction fails fast with the invalid-length error — never
silently clamping — for every write whose payload length lies outside 1–10
and for every read whose requested length lies outside 1–512 (the functions
return their failure value before building or sending anything, regardless of
what the port would answer); for every in-bounds write payload and read
length (with a 16-bit register address), no invalid-length failure occurs and
a frame is built. -/
theorem c8_length_validation (reg_addr read_len : Nat) (write_data : List Nat)
    (is_auto_push : Bool) (resp₁ resp₂ : Option (List Nat))
    (hreg : reg_addr < 65536) :
    (¬ (1 ≤ write_data.length ∧ write_data.length ≤ 10) →
      write_register reg_addr write_data is_auto_push resp₁ = false)
    ∧ (¬ (1 ≤ read_len ∧ read_len ≤ 512) →
      read_register reg_addr read_len resp₂ = none)
    ∧ (1 ≤ write_data.length → write_data.length ≤ 10 →
      (build_request_frame 0x10 reg_addr write_data.length write_data).isSome = true)
    ∧ (1 ≤ read_len → read_len ≤ 512 →
      (build_request_frame 0x03 reg_addr read_len []).isSome = true) := by
  refine ⟨?_, ?_, ?_, ?_⟩
  · intro h
    simp only [write_register, if_pos h]
  · intro h
    simp only [read_register, if_pos h]
  · intro h1 h2
    simp only [build_request_frame,
      if_pos (by omega : (0x10 : Nat) < 256 ∧ reg_addr < 65536 ∧ write_data.length < 65536),
      Option.isSome_some]
  · intro h1 h2
    simp only [build_request_frame,
      if_pos (by omega : (0x03 : Nat) < 256 ∧ reg_addr < 65536 ∧ read_len < 65536),
      Option.isSome_some]

/-- Closed instance of `c8_length_validation`: an 11-byte write payload is
rejected, a 600-byte read request is rejected, and the in-bounds
builds succeed. -/
theorem c8_witness :
    write_register 0x0017 [0, 1, 2, 3, 4, 5, 6, 7, 8, 9, 10] false none = false
    ∧ read_register 0x0000 600 none = none
    ∧ (build_request_frame 0x10 0x0017 1 [0x01]).isSome = true
    ∧ (build_request_frame 0x03 0x0000 0x0F []).isSome = true := by
  have h := c8_length_validation 0x0017 600 [0, 1, 2, 3, 4, 5, 6, 7, 8, 9, 10]
      false none none (by decide)
  have h' := c8_length_validation 0x0000 600 [0x01] false none none (by decide)
  exact ⟨h.1 (by decide), h'.2.1 (by decide),
    (c8_length_validation 0x0017 1 [0x01] false none none (by decide)).2.2.1
      (by decide) (by decide),
    (c8_length_validation 0x0000 0x0F [0x01] false none none (by decide)).2.2.2
      (by decide) (by decide)⟩

/-- Position of the first occurrence of `h` as a contiguous subsequence of
`s`, the meaning of Python's `bytes.find` (restricted to the found case):
the least `i` such that `h` is a prefix of `s` from position `i` on, `none`
when there is no occurrence. -/
def findSub (s h : List Nat) : Option Nat :=
  (List.range (s.length + 1)).find? (fun i => h.isPrefixOf (s.drop i))

/-- A position reported by `findSub` really carries an occurrence of `h`. -/
theorem findSub_some (s h : List Nat) (i : Nat) (hf : findSub s h = some i) :
    h.isPrefixOf (s.drop i) = true := by
  unfold findSub at hf
  exact @List.find?_some Nat (fun j => h.isPrefixOf (List.drop j s)) i
    (List.range (s.length + 1)) hf

/-- Accumulation loop of `read_serial_data` (`Read_Single_Sensor_Hand.py`,
lines 57–86), modelled over the sequence of chunks the port delivers: each
list entry is one non-empty `ser.read(ser.in_waiting)` result, and the
wall-clock sliding timeout is abstracted into the chunk list being finite
(the list ends when a full timeout interval passes with no new bytes).
After appending a chunk the source checks
`if expected_head and expected_head in recv_data` and, on success, returns
the accumulated buffer from the first occurrence of the marker on
(`recv_data[recv_data.find(expected_head):]`); at exhaustion it returns the
accumulated buffer if non-empty and `None` otherwise. -/
def read_loop (eh : Option (List Nat)) : List Nat → List (List Nat) → Option (List Nat)
  | acc, [] => if acc = [] then none else some acc
  | acc, c :: rest =>
    match eh with
    | some h =>
      if h = [] then read_loop eh (acc ++ c) rest
      else
        match findSub (acc ++ c) h with
        | some pos => some ((acc ++ c).drop pos)
        | none => read_loop eh (acc ++ c) rest
    | none => read_loop eh (acc ++ c) rest

/-- Embeds `read_serial_data`: run the accumulation loop on an empty buffer
over the delivered chunks. -/
def read_serial_data (chunks : List (List Nat)) (expected_head : Option (List Nat)) :
    Option (List Nat) :=
  read_loop expected_head [] chunks

/-- If the marker is already contained in the buffer accumulated over some
prefix of the schedule, the loop never looks at the rest of the schedule. -/
theorem read_loop_early (h : List Nat) (hne : h ≠ []) :
    ∀ (pre post : List (List Nat)) (acc : List Nat),
      findSub acc h = none → (findSub (acc ++ pre.flatten) h).isSome →
      read_loop (some h) acc (pre ++ post) = read_loop (some h) acc pre := by
  intro pre
  induction pre with
  | nil =>
    intro post acc hnone hsome
    rw [List.flatten_nil, List.append_nil, hnone] at hsome
    exact absurd hsome (by simp)
  | cons c pre' ih =>
    intro post acc hnone hsome
    show read_loop (some h) acc (c :: (pre' ++ post)) = read_loop (some h) acc (c :: pre')
    cases hf : findSub (acc ++ c) h with
    | some pos => simp [read_loop, hne, hf]
    | none =>
      have hsome' : (findSub ((acc ++ c) ++ pre'.flatten) h).isSome := by
        rw [List.append_assoc]
        rw [List.flatten_cons, ← List.append_assoc] at hsome
        rw [List.append_assoc] at hsome
        exact hsome
      simp only [read_loop, hne, hf, if_neg hne]
      exact ih post (acc ++ c) hf hsome'

/-- When the marker appears in the accumulated buffer, the loop stops at the
first chunk completing an occurrence and returns the buffer accumulated so
far with everything before the first occurrence dropped. -/
theorem read_loop_found (h : List Nat) (hne : h ≠ []) :
    ∀ (rest done : List (List Nat)),
      findSub done.flatten h = none →
      (findSub ((done ++ rest).flatten) h).isSome →
      ∃ k pos, k ≤ rest.length
        ∧ findSub ((done ++ rest.take k).flatten) h = some pos
        ∧ (∀ j, j < k → findSub ((done ++ rest.take j).flatten) h = none)
        ∧ read_loop (some h) done.flatten rest
            = some (((done ++ rest.take k).flatten).drop pos) := by
  intro rest
  induction rest with
  | nil =>
    intro done hnone hsome
    rw [List.append_nil, hnone] at hsome
    exact absurd hsome (by simp)
  | cons c rest' ih =>
    intro done hnone hsome
    cases hf : findSub (done.flatten ++ c) h with
    | some pos =>
      refine ⟨1, pos, by simp, ?_, ?_, ?_⟩
      · simpa [List.flatten_append] using hf
      · intro j hj
        have hj0 : j = 0 := by omega
        subst hj0
        simpa using hnone
      · have : read_loop (some h) done.flatten (c :: rest')
            = some ((done.flatten ++ c).drop pos) := by
          simp [read_loop, hne, hf]
        rw [this]
        simp [List.flatten_append]
    | none =>
      have hsome' : (findSub (((done ++ [c]) ++ rest').flatten) h).isSome := by
        rw [show (done ++ [c]) ++ rest' = done ++ (c :: rest') by simp]
        exact hsome
      have hnone' : findSub ((done ++ [c]).flatten) h = none := by
        rw [List.flatten_append]
        simpa using hf
      obtain ⟨k, pos, hk, hfind, hmin, hloop⟩ := ih (done ++ [c]) hnone' hsome'
      refine ⟨k + 1, pos, by simpa using hk, ?_, ?_, ?_⟩
      · rw [List.take_succ_cons,
          show done ++ (c :: rest'.take k) = (done ++ [c]) ++ rest'.take k by simp]
        exact hfind
      · intro j hj
        cases j with
        | zero => simpa using hnone
        | succ j' =>
          rw [List.take_succ_cons,
            show done ++ (c :: rest'.take j') = (done ++ [c]) ++ rest'.take j' by simp]
          exact hmin j' (by omega)
      · have hstep : read_loop (some h) done.flatten (c :: rest')
            = read_loop (some h) (done.flatten ++ c) rest' := by
          simp [read_loop, hne, hf]
        rw [hstep, show done.flatten ++ c = (done ++ [c]).flatten by simp, hloop,
          List.take_succ_cons,
          show done ++ (c :: rest'.take k) = (done ++ [c]) ++ rest'.take k by simp]

/-- C7: For every incoming byte schedule under which the accumulated receive
buffer comes to contain the given 2-byte `expected_head` marker,
`read_serial_data` returns immediately upon the arrival of the chunk
completing the marker — without consuming the remaining schedule (i.e. the
remaining timeout budget) — and the returned buffer is the bytes accumulated
up to that chunk with everything before the first occurrence of the marker
discarded, so the result starts with the marker. -/
theorem c7_head_early_return (pre post : List (List Nat)) (h : List Nat)
    (hlen : h.length = 2) (hin : (findSub pre.flatten h).isSome) :
    read_serial_data (pre ++ post) (some h) = read_serial_data pre (some h)
    ∧ ∃ k pos r, k ≤ pre.length
        ∧ findSub ((pre.take k).flatten) h = some pos
        ∧ (∀ j, j < k → findSub ((pre.take j).flatten) h = none)
        ∧ read_serial_data pre (some h) = some r
        ∧ r = ((pre.take k).flatten).drop pos
        ∧ h.isPrefixOf r = true := by
  have hne : h ≠ [] := by
    intro hh
    rw [hh] at hlen
    simp at hlen
  have hnil : findSub [] h = none := by
    cases h with
    | nil => exact absurd rfl hne
    | cons a t => rfl
  constructor
  · exact read_loop_early h hne pre post [] hnil (by simpa using hin)
  · obtain ⟨k, pos, hk, hfind, hmin, hloop⟩ :=
      read_loop_found h hne pre [] hnil (by simpa using hin)
    have hfind' : findSub ((pre.take k).flatten) h = some pos := by simpa using hfind
    have hmin' : ∀ j, j < k → findSub ((pre.take j).flatten) h = none := by
      intro j hj
      have := hmin j hj
      simpa using this
    have hloop' : read_serial_data pre (some h)
        = some (((pre.take k).flatten).drop pos) := by
      simpa [read_serial_data] using hloop
    exact ⟨k, pos, _, hk, hfind', hmin', hloop', rfl, findSub_some _ _ _ hfind'⟩

/-- Closed instance of `c7_head_early_return`: with the marker `AA 55`
completed by the second chunk, the third scheduled chunk is never consumed. -/
theorem c7_witness :
    read_serial_data ([[0x01, 0xAA], [0x55, 0x99]] ++ [[0x07]]) (some [0xAA, 0x55])
      = read_serial_data [[0x01, 0xAA], [0x55, 0x99]] (some [0xAA, 0x55]) :=
  (c7_head_early_return [[0x01, 0xAA], [0x55, 0x99]] [[0x07]] [0xAA, 0x55]
    (by decide) (by decide)).1

/-- Embeds `get_ser_response` from `Read_Single_Sensor_Usb.py`
(lines 66–190).  The serial exchange is abstracted: `response` is what
`read_serial_response` returned (`none` on timeout), and `extra` is what the
follow-up `ser.read_all()` at line 131 delivers when the first read is
shorter than 18 bytes.  `Except Unit` models uncaught Python exceptions: the
length encoding `data_length.to_bytes(2, "little")` at line 97 sits outside
every `try` block, so `data_length ≥ 65536` raises an `OverflowError` that
propagates to the caller (`.error ()`); every explicit `return None` and the
implicit fall-off-the-end return at the close of the function are `.ok none`.
The final branch extracts the data field exactly as the source does and then
— as in the source — returns without it. -/
def get_ser_response (command : String) (data_length : Nat)
    (response : Option (List Nat)) (extra : List Nat) :
    Except Unit (Option (List Nat)) :=
  if command ≠ "get_data" ∧ command ≠ "get_resultant_data" then .ok none
  else
    let fixed_fields : List Nat :=
      if command = "get_data" then [0x03, 0x00, 0xFB, 0x0E, 0x04, 0x00, 0x00]
      else [0x03, 0x00, 0xFB, 0xF0, 0x03, 0x00, 0x00]
    if data_length = 0 then .ok none
    else if 65536 ≤ data_length then .error ()
    else
      let data4_to_12 := fixed_fields ++ le2 data_length
      let req_frame_without_lrc := [0x55, 0xAA] ++ le2 data4_to_12.length ++ data4_to_12
      let _lrc_val := calculate_lrc req_frame_without_lrc
      match response with
      | none => .ok none
      | some r0 =>
        if r0 = [] then .ok none
        else
          let r := if r0.length < 18 then r0 ++ extra else r0
          if r.take 2 ≠ [0xAA, 0x55] then .ok none
          else
            let lrc_pos := 4 + leVal ((r.drop 2).take 2)
            if r.length ≤ lrc_pos then .ok none
            else if calculate_lrc (r.take lrc_pos) ≠ r.getD lrc_pos 0 then .ok none
            else if r.length ≤ 13 then .ok none
            else if r.getD 13 0 ≠ 0 then .ok none
            else
              let return_len := leVal ((r.drop 11).take 2)
              if return_len = 0 then .ok none
              else if r.length < 14 + return_len then .ok none
              else
                let _data_field := (r.drop 14).take return_len
                .ok none

/-- C10 as stated is false on one point: `get_ser_response` does not return
`None` for *every* input — for a known command with `data_length ≥ 65536`
the length encoding at line 97 of the Usb script raises an uncaught
`OverflowError` instead of returning. -/
theorem c10_overflow_claim_false :
    get_ser_response "get_data" 65536 none [] = .error ()
    ∧ get_ser_response "get_data" 65536 none [] ≠ .ok none := by
  refine ⟨rfl, ?_⟩
  intro hh
  exact Except.noConfusion hh

/-- C10 amended: for every input whose `data_length` fits the 2-byte length
encoding (`< 65536`), the Usb script's single-exchange operation
`get_ser_response` returns `None` — including when the response passes every
check (matching `AA 55` head, sufficient length, correct LRC, zero status
byte, positive return length): after extracting the data field it falls off
the end of the function without returning it, so a caller can never obtain
the decoded payload from this entry point. -/
theorem c10_always_none (command : String) (data_length : Nat)
    (response : Option (List Nat)) (extra : List Nat)
    (hdl : data_length < 65536) :
    get_ser_response command data_length response extra = .ok none := by
  unfold get_ser_response
  by_cases hcmd : command ≠ "get_data" ∧ command ≠ "get_resultant_data"
  · rw [if_pos hcmd]
  · rw [if_neg hcmd]
    dsimp only
    by_cases h0 : data_length = 0
    · rw [if_pos h0]
    · rw [if_neg h0, if_neg (by omega : ¬ 65536 ≤ data_length)]
      cases response with
      | none => rfl
      | some r0 => repeat first | rfl | split | dsimp only

/-- Closed instance of `c10_always_none` on a response that passes every
check: head `AA 55`, declared length 14 (checksum at offset 18), correct
LRC `B7`, status byte 0, return length 4, data field `DE AD BE EF` present —
the result is still `None`. -/
theorem c10_witness :
    get_ser_response "get_data" 4
      (some [0xAA, 0x55, 0x0E, 0x00, 0x00, 0x00, 0x00, 0x00, 0x00, 0x00, 0x00,
             0x04, 0x00, 0x00, 0xDE, 0xAD, 0xBE, 0xEF, 0xB7]) []
      = .ok none :=
  c10_always_none "get_data" 4
    (some [0xAA, 0x55, 0x0E, 0x00, 0x00, 0x00, 0x00, 0x00, 0x00, 0x00, 0x00,
           0x04, 0x00, 0x00, 0xDE, 0xAD, 0xBE, 0xEF, 0xB7]) [] (by decide)
